import Mathlib

/-!
Verification development for the two video-effect scripts
`scripts/create-human-outline.py` and `scripts/extract-foreground.py`.

The scripts are shallowly embedded below.  Images are modelled as a
height/width pair together with a pixel function (values are `Nat`, the
source arrays are `uint8` so every operation keeps values in `[0, 255]`).
The OpenCV primitives used by the scripts (`cv2.threshold`,
`cv2.getStructuringElement` with `MORPH_ELLIPSE`, `cv2.dilate`, `cv2.erode`,
`cv2.subtract`, `cv2.add`, `cv2.GaussianBlur`) are modelled from their
documented semantics:

* `threshold(_, t, 255, THRESH_BINARY)` maps `v` to `255` when `t < v`
  and `0` otherwise;
* the elliptical structuring element is generated by OpenCV's published
  algorithm (per row `i`, columns `c - dx .. c + dx` are set where
  `dx = cvRound (c * sqrt (r^2 - dy^2) / r)` and `cvRound` rounds half to
  even);
* `dilate` takes the maximum of the source over the kernel support
  (constant border that does not influence the maximum, i.e. `0`); whether
  OpenCV applies the kernel as given or point-reflected only matters for
  even-sized kernels, so the convention is carried as an explicit boolean
  parameter `cv` and every theorem below holds for both conventions;
* `erode` is the dual with minimum and border `255`;
* `subtract`/`add` saturate at `0`/`255`;
* `GaussianBlur(_, (k, k), 0)` on `uint8` data uses OpenCV's fixed
  small-kernel coefficients for `k ∈ {1, 3, 5, 7}` (e.g. `[1,4,6,4,1]/16`
  for `k = 5`), evaluated in fixed point: per-axis weights scaled by `2^8`,
  accumulated exactly, then descaled by `2^16` with rounding, with
  `BORDER_REFLECT_101` border handling.  For larger kernel sizes the true
  OpenCV coefficients come from a floating-point Gaussian; no claim below
  depends on those values (only on the blur preserving the image
  dimensions), and the model uses a normalised placeholder kernel there.

NumPy's `(arr * f).astype(np.uint8)` (with `f` a Python float such as
`0.6`, `0.5` or `0.35`) is modelled exactly: the float literal is the
nearest IEEE-754 double, the product is rounded to nearest-even double
precision, and the conversion to `uint8` truncates toward zero.
-/

set_option maxHeartbeats 4000000
set_option maxRecDepth 8000

/-- A single-channel image: spatial dimensions plus a pixel function
(row, column ↦ value).  Values outside the bounds are irrelevant to the
theorems, which only ever inspect in-bounds pixels or pixel functions that
are constantly `0` off-image. -/
structure Img where
  h : Nat
  w : Nat
  pix : Nat → Nat → Nat

/-- Read a pixel at possibly out-of-range integer coordinates; out-of-range
reads yield `0` (the border value that does not influence a dilation). -/
def Img.get0 (img : Img) (r c : Int) : Nat :=
  if 0 ≤ r ∧ r < (img.h : Int) ∧ 0 ≤ c ∧ c < (img.w : Int) then
    img.pix r.toNat c.toNat
  else 0

/-- Read a pixel with border value `255` (the border that does not
influence an erosion). -/
def Img.get255 (img : Img) (r c : Int) : Nat :=
  if 0 ≤ r ∧ r < (img.h : Int) ∧ 0 ≤ c ∧ c < (img.w : Int) then
    img.pix r.toNat c.toNat
  else 255

/-- Build an image from a rectangular list of rows (used for concrete
test inputs). -/
def Img.ofRows (rows : List (List Nat)) : Img :=
  ⟨rows.length, (rows.headD []).length, fun r c => (rows.getD r []).getD c 0⟩

/-- `cv2.threshold(v, t, 255, cv2.THRESH_BINARY)` on one pixel. -/
def threshVal (t v : Nat) : Nat := if t < v then 255 else 0

/-- `cv2.threshold(img, t, 255, cv2.THRESH_BINARY)`. -/
def thresholdImg (t : Nat) (img : Img) : Img :=
  ⟨img.h, img.w, fun r c => threshVal t (img.pix r c)⟩

/-- Floor of the square root, by exhaustive search (evaluated only at
small concrete arguments). -/
def natSqrt (n : Nat) : Nat :=
  (List.range (n + 2)).foldl (fun acc k => if k * k ≤ n then k else acc) 0

/-- `cvRound (c * sqrt T / r)` computed exactly over the integers, with
the round-half-to-even tie rule of `cvRound`. -/
def ellipseDx (c r T : Nat) : Nat :=
  if r = 0 then 0
  else
    let d := natSqrt (c * c * T) / r
    let lhs := 4 * c * c * T
    let rhs := (2 * d + 1) ^ 2 * (r * r)
    if rhs < lhs then d + 1 else if lhs = rhs then d + d % 2 else d

/-- Offsets contributed by row `i` of OpenCV's `MORPH_ELLIPSE` structuring
element of size `kw × kh`, relative to the default anchor
`(kw / 2, kh / 2)`.  Offsets are `(column offset, row offset)` pairs. -/
def ellipseRowOffsets (kw kh i : Nat) : List (Int × Int) :=
  let r := kh / 2
  let c := kw / 2
  let dy : Int := (i : Int) - (r : Int)
  let T : Nat := ((r : Int) * (r : Int) - dy * dy).toNat
  let dx := ellipseDx c r T
  let j1 := c - dx
  let j2 := min (c + dx + 1) kw
  (List.range kw).filterMap (fun j =>
    if j1 ≤ j ∧ j < j2 then some (((j : Int) - (c : Int), dy)) else none)

/-- OpenCV `getStructuringElement(cv2.MORPH_ELLIPSE, (kw, kh))` as a list
of kernel offsets relative to the anchor. -/
def ellipseOffsets (kw kh : Nat) : List (Int × Int) :=
  (List.range kh).foldr (fun i acc => ellipseRowOffsets kw kh i ++ acc) []

/-- `cv2.getStructuringElement` validates that the (normalised) anchor lies
inside the kernel rectangle; for a `0`-sized kernel this assertion fails
and OpenCV raises `cv2.error`. -/
def getStructuringElement (kw kh : Nat) : Except String (List (Int × Int)) :=
  if 1 ≤ kw ∧ 1 ≤ kh then .ok (ellipseOffsets kw kh)
  else .error "cv2.error: (-215:Assertion failed) anchor.inside(rect) in function getStructuringElement"

/-- `cv2.dilate`: pixelwise maximum of the source over the kernel support.
`cv` selects the orientation convention for the kernel offsets (the two
conventions differ only for even-sized, asymmetric kernels). -/
def dilate (cv : Bool) (img : Img) (offs : List (Int × Int)) : Img :=
  ⟨img.h, img.w, fun r c =>
    offs.foldl (fun m o =>
      max m (img.get0 ((r : Int) + (if cv then o.2 else -o.2))
                      ((c : Int) + (if cv then o.1 else -o.1)))) 0⟩

/-- `cv2.erode`: pixelwise minimum of the source over the kernel support. -/
def erode (img : Img) (offs : List (Int × Int)) : Img :=
  ⟨img.h, img.w, fun r c =>
    offs.foldl (fun m o =>
      min m (img.get255 ((r : Int) + o.2) ((c : Int) + o.1))) 255⟩

/-- `cv2.morphologyEx(img, cv2.MORPH_CLOSE, k)`: dilation followed by
erosion with the same structuring element. -/
def morphClose (cv : Bool) (img : Img) (offs : List (Int × Int)) : Img :=
  erode (dilate cv img offs) offs

/-- `cv2.subtract` on `uint8`: saturating subtraction. -/
def imSub (a b : Img) : Img :=
  ⟨a.h, a.w, fun r c => a.pix r c - b.pix r c⟩

/-- `cv2.add` on `uint8`: saturating addition (also covers the redundant
`np.clip(_, 0, 255)` the first script applies afterwards). -/
def imAdd (a b : Img) : Img :=
  ⟨a.h, a.w, fun r c => min 255 (a.pix r c + b.pix r c)⟩

/-- Apply a per-pixel scalar function (used for the NumPy
`(arr * opacity).astype(np.uint8)` steps). -/
def imScale (g : Nat → Nat) (img : Img) : Img :=
  ⟨img.h, img.w, fun r c => g (img.pix r c)⟩

/-- OpenCV `borderInterpolate(p, len, BORDER_REFLECT_101)`. -/
def reflect101 (p : Int) (len : Nat) : Nat :=
  if len ≤ 1 then 0
  else
    let m : Int := 2 * (len : Int) - 2
    let q := (p % m).toNat
    if q < len then q else 2 * len - 2 - q

/-- Per-axis fixed-point Gaussian weights (scaled by `2^8`, summing to
`2^8`).  Sizes `1, 3, 5, 7` are OpenCV's documented fixed coefficients for
`sigma = 0`; larger sizes use floating-point-derived coefficients that no
theorem below depends on, so a normalised placeholder is used there. -/
def gaussWeights : Nat → List Nat
  | 1 => [256]
  | 3 => [64, 128, 64]
  | 5 => [16, 64, 96, 64, 16]
  | 7 => [8, 28, 56, 72, 56, 28, 8]
  | k => (List.range k).map (fun i =>
      if i = k / 2 then 256 - (k - 1) * (256 / k) else 256 / k)

/-- `cv2.GaussianBlur(img, (k, k), 0)` on `uint8` data: exact fixed-point
accumulation of the separable kernel (weights scaled by `2^8` per axis),
descaled by `2^16` with round-half-up, `BORDER_REFLECT_101` borders. -/
def gaussianBlur (ksize : Nat) (img : Img) : Img :=
  let wts := gaussWeights ksize
  let m : Int := (ksize / 2 : Nat)
  ⟨img.h, img.w, fun r c =>
    (((List.range ksize).map (fun i =>
        ((List.range ksize).map (fun j =>
            wts.getD i 0 * wts.getD j 0 *
              img.pix (reflect101 ((r : Int) + (i : Int) - m) img.h)
                      (reflect101 ((c : Int) + (j : Int) - m) img.w))).sum)).sum
      + 32768) / 65536⟩

/-- Floor of `log2` (evaluated at arguments below `2^64`). -/
def floorLog2 (P : Nat) : Nat :=
  (List.range 64).foldl (fun acc k => if 2 ^ k ≤ P then k else acc) 0

/-- Round `P / 2^t` to the nearest integer, ties to even. -/
def rne (P t : Nat) : Nat :=
  let q := P / 2 ^ t
  let r := P % 2 ^ t
  let half := 2 ^ (t - 1)
  if half < r then q + 1 else if r = half then q + q % 2 else q

/-- Truncation toward zero of the IEEE-754 double product
`v * (numer / 2^shift)`: the exact product `v * numer / 2^shift` is first
rounded to 53 significant bits (nearest, ties to even), then floored.
This models NumPy's `(uint8 array * float).astype(np.uint8)`. -/
def floatTruncScale (numer shift v : Nat) : Nat :=
  let P := v * numer
  if P = 0 then 0
  else
    let L := floorLog2 P
    if L ≤ 52 then P / 2 ^ shift
    else
      let m := rne P (L - 52)
      m / 2 ^ (shift - (L - 52))

/-- `(arr * 0.6).astype(np.uint8)`: `0.6` is the double
`5404319552844595 / 2^53`. -/
def mul06 (v : Nat) : Nat := floatTruncScale 5404319552844595 53 v

/-- `(arr * 0.5).astype(np.uint8)`: `0.5` is exact, the product is exact,
truncation gives `v / 2`. -/
def mul05 (v : Nat) : Nat := v / 2

/-- `(arr * 0.35).astype(np.uint8)`: `0.35` is the double
`6305039478318694 / 2^54`. -/
def mul035 (v : Nat) : Nat := floatTruncScale 6305039478318694 54 v

/-- `create_outline_from_mask(mask, stroke_size)` from
`scripts/create-human-outline.py` (lines 16-49): binarise at 127, inner
stroke = dilate by an ellipse of size `stroke_size + 1` minus the binary
mask, outer glow = dilate by an ellipse of size `stroke_size * 3 + 1`
minus the binary mask, Gaussian-blurred with kernel `stroke_size * 4 + 1`
and attenuated by `0.6`, combined with `cv2.add` (and a redundant clip). -/
def create_outline_from_mask (cv : Bool) (mask : Img) (stroke_size : Nat) : Img :=
  let binary_mask := thresholdImg 127 mask
  let kernel_inner := ellipseOffsets (stroke_size + 1) (stroke_size + 1)
  let dilated_inner := dilate cv binary_mask kernel_inner
  let inner_outline := imSub dilated_inner binary_mask
  let kernel_outer := ellipseOffsets (stroke_size * 3 + 1) (stroke_size * 3 + 1)
  let dilated_outer := dilate cv binary_mask kernel_outer
  let outer_glow := imSub dilated_outer binary_mask
  let outer_glow2 := imScale mul06 (gaussianBlur (stroke_size * 4 + 1) outer_glow)
  imAdd outer_glow2 inner_outline

/-- `create_outline(alpha, stroke_size)` from
`scripts/extract-foreground.py` (lines 54-74): binarise at 127, 3×3
elliptical close, inner stroke = dilate by an ellipse of size
`stroke_size` minus the closed mask, outer glow = dilate by an ellipse of
size `stroke_size * 2` minus the inner-dilated image, blurred with kernel
`stroke_size | 1` and attenuated by `0.5`, combined with `cv2.add`.
Structuring-element creation fails (OpenCV assertion) when a kernel
dimension is `0`, hence the `Except`. -/
def create_outline (cv : Bool) (alpha : Img) (stroke_size : Nat) : Except String Img := do
  let binary0 := thresholdImg 127 alpha
  let k3 ← getStructuringElement 3 3
  let binary := morphClose cv binary0 k3
  let kernel ← getStructuringElement stroke_size stroke_size
  let dilated := dilate cv binary kernel
  let inner := imSub dilated binary
  let kernel2 ← getStructuringElement (stroke_size * 2) (stroke_size * 2)
  let dilated2 := dilate cv binary kernel2
  let outer := imSub dilated2 dilated
  let outer2 := imScale mul05 (gaussianBlur (stroke_size ||| 1) outer)
  pure (imAdd outer2 inner)

/-- The pre-translation part of `create_shadow(alpha, ...)` from
`scripts/extract-foreground.py` (lines 76-84): binarise at 100, dilate by
a 5×5 ellipse, Gaussian-blur with kernel `blur | 1`, scale by the opacity
`0.35` (the function's fixed default, used at its only call site). -/
def shadowPre (cv : Bool) (alpha : Img) (blur : Nat) : Img :=
  let binary := thresholdImg 100 alpha
  let kernel := ellipseOffsets 5 5
  let shadow := dilate cv binary kernel
  let shadow2 := gaussianBlur (blur ||| 1) shadow
  imScale mul035 shadow2

/-- Lines 86-91 of `scripts/extract-foreground.py`: `result`
starts as `np.zeros_like(shadow)` and, only when both offsets are
non-negative, `result[offset_y:, offset_x:] = shadow[:h-offset_y, :w-offset_x]`. -/
def translateShadow (s : Img) (offset_x offset_y : Int) : Img :=
  ⟨s.h, s.w, fun r c =>
    if 0 ≤ offset_y ∧ 0 ≤ offset_x then
      if offset_y ≤ (r : Int) ∧ offset_x ≤ (c : Int) then
        s.pix (r - offset_y.toNat) (c - offset_x.toNat)
      else 0
    else 0⟩

/-- `create_shadow(alpha, offset_x, offset_y, blur)` from
`scripts/extract-foreground.py` (lines 76-91). -/
def create_shadow (cv : Bool) (alpha : Img) (offset_x offset_y : Int) (blur : Nat) : Img :=
  translateShadow (shadowPre cv alpha blur) offset_x offset_y

/-- Python `%`: raises `ZeroDivisionError` for a zero modulus. -/
def pyMod (a b : Nat) : Except String Nat :=
  if b = 0 then .error "ZeroDivisionError: integer division or modulo by zero"
  else .ok (a % b)

/-- The per-frame loop of `process_video_fast` in
`scripts/extract-foreground.py` (lines 131-181), with the per-frame work
(mask source, stylizer, compositor) abstracted as `f`.  `frame_idx` starts
at `0` and is tested with `frame_idx % sample_rate == 0` before any write;
frames are only written while `last_fg is not None`. -/
def pvfLoopE (f : α → β) (N : Nat) : List α → Nat → Option β → Nat → Except String (List β × Nat)
  | [], _, _, processed => .ok ([], processed)
  | frame :: rest, idx, lastv, processed => do
    let m ← pyMod idx N
    if m = 0 then
      let out := f frame
      let (outs, p) ← pvfLoopE f N rest (idx + 1) (some out) (processed + 1)
      pure (out :: outs, p)
    else
      match lastv with
      | some out => do
        let (outs, p) ← pvfLoopE f N rest (idx + 1) (some out) processed
        pure (out :: outs, p)
      | none => pvfLoopE f N rest (idx + 1) none processed

/-- Entry point of the `process_video_fast` frame loop. -/
def process_video_fast_frames (frames : List α) (f : α → β) (N : Nat) :
    Except String (List β × Nat) :=
  pvfLoopE f N frames 0 none 0

/-- The per-frame loop of `process_video` in
`scripts/create-human-outline.py` (lines 96-134): `frame_count` is
incremented before the test, so it is `1` on the first frame, and the test
is `frame_count % sample_rate == 0 or last_outline is None` (Python
evaluates the modulo before the `or`); every frame is written. -/
def pvLoopE (f : α → β) (N : Nat) : List α → Nat → Option β → Nat → Except String (List β × Nat)
  | [], _, _, processed => .ok ([], processed)
  | frame :: rest, count, lastv, processed => do
    let m ← pyMod count N
    if m = 0 ∨ lastv.isNone then
      let out := f frame
      let (outs, p) ← pvLoopE f N rest (count + 1) (some out) (processed + 1)
      pure (out :: outs, p)
    else
      let out := lastv.getD (f frame)
      let (outs, p) ← pvLoopE f N rest (count + 1) lastv processed
      pure (out :: outs, p)

/-- Entry point of the `process_video` frame loop (`frame_count` reaches
`1` on the first iteration). -/
def process_video_frames (frames : List α) (f : α → β) (N : Nat) :
    Except String (List β × Nat) :=
  pvLoopE f N frames 1 none 0

/-- Outcome of the encode-and-cleanup epilogue of either script: whether an
exception propagates to the caller and whether the temporary frame files
get deleted. -/
structure EncodeOutcome where
  raised : Bool
  tempDeleted : Bool
deriving DecidableEq, Repr

/-- `os.system(cmd)` returns the child's exit status. -/
def osSystem (exitCode : Int) : Int := exitCode

/-- Lines 141-152 of `scripts/create-human-outline.py`: the ffmpeg
invocation goes through `os.system` whose return value is discarded, and
the frame files are unlinked unconditionally afterwards. -/
def process_video_finish (exitCode : Int) : EncodeOutcome :=
  let _ := osSystem exitCode
  { raised := false, tempDeleted := true }

/-- `subprocess.run(cmd, capture_output=True, check=True)`: raises
`CalledProcessError` on a non-zero exit status. -/
def subprocessRunCheck (exitCode : Int) : Except String Unit :=
  if exitCode = 0 then .ok ()
  else .error "subprocess.CalledProcessError"

/-- Lines 187-200 of `scripts/extract-foreground.py`: three checked
encoder invocations in sequence, then `shutil.rmtree(temp_dir)`; an
exception from any invocation propagates and skips the cleanup. -/
def process_video_fast_finish (exitFg exitOutline exitShadow : Int) : EncodeOutcome :=
  match subprocessRunCheck exitFg with
  | .error _ => { raised := true, tempDeleted := false }
  | .ok _ =>
    match subprocessRunCheck exitOutline with
    | .error _ => { raised := true, tempDeleted := false }
    | .ok _ =>
      match subprocessRunCheck exitShadow with
      | .error _ => { raised := true, tempDeleted := false }
      | .ok _ => { raised := false, tempDeleted := true }

/-- The value returned by the mask source (`rembg.remove`) as the script
sees it: a NumPy array with some number of dimensions, spatial size and
channel count. -/
structure ModelResult where
  ndim : Nat
  h : Nat
  w : Nat
  channels : Nat
  pix : Nat → Nat → Nat → Nat

/-- The all-opaque mask `np.ones((height, width), dtype=np.uint8) * 255`. -/
def allOpaque (height width : Nat) : Img :=
  ⟨height, width, fun _ _ => 255⟩

/-- Lines 143-150 of `scripts/extract-foreground.py`: `result_np.shape[2]`
raises `IndexError` on an array with fewer than three dimensions; a
4-channel array yields its alpha plane; in the else branch the alpha is
silently replaced by an all-opaque mask of the video's dimensions, but the
branch then calls `cv2.cvtColor(result_np, cv2.COLOR_RGB2BGRA)`, which
requires exactly 3 input channels — so a channel count other than 3 or 4
raises `cv2.error` there, and only the 3-channel case completes
silently. -/
def alphaFromResult (res : ModelResult) (height width : Nat) : Except String Img :=
  if res.ndim < 3 then .error "IndexError: tuple index out of range"
  else if res.channels = 4 then .ok ⟨res.h, res.w, fun r c => res.pix r c 3⟩
  else if res.channels = 3 then .ok (allOpaque height width)
  else .error "cv2.error: (-2:Unspecified error) Invalid number of channels in input image in function cvtColor"

/-- A 4-channel output frame. -/
structure RGBAImg where
  h : Nat
  w : Nat
  chB : Nat → Nat → Nat
  chG : Nat → Nat → Nat
  chR : Nat → Nat → Nat
  chA : Nat → Nat → Nat

/-- Building an output frame: `np.zeros((height, width, 4), dtype=np.uint8)`
with flat colour channels, then `arr[:, :, 3] = alpha`; NumPy raises a
broadcast error when the alpha plane's shape is not `(height, width)`. -/
def composeBGRA (height width colB colG colR : Nat) (alpha : Img) :
    Except String RGBAImg :=
  if alpha.h = height ∧ alpha.w = width then
    .ok ⟨height, width, fun _ _ => colB, fun _ _ => colG, fun _ _ => colR, alpha.pix⟩
  else .error "ValueError: could not broadcast input array"

/-- `argparse` with `type=int` (line 162 of `create-human-outline.py`,
line 213 of `extract-foreground.py`): any integer token is accepted for
`--sample`, with no range validation. -/
def parseSampleArg (n : Int) : Except String Int := .ok n

/-- The outline derivation exactly as claim C2 words it, instantiated with
the kernel sizes `create_outline_from_mask` uses: binarise at 127 to `B`;
inner stroke = (inner dilation of `B`) minus `B`; outer glow = (outer
dilation of `B`) minus the INNER-DILATED region, Gaussian-blurred and
attenuated by `0.6`; saturating addition of glow and stroke.  The script
itself subtracts `B`, not the inner-dilated region, in the glow step. -/
def outlineC2Claimed (cv : Bool) (mask : Img) (s : Nat) : Img :=
  let B := thresholdImg 127 mask
  let innerDilated := dilate cv B (ellipseOffsets (s + 1) (s + 1))
  let innerStroke := imSub innerDilated B
  let outerGlow := imSub (dilate cv B (ellipseOffsets (s * 3 + 1) (s * 3 + 1))) innerDilated
  let outerGlow2 := imScale mul06 (gaussianBlur (s * 4 + 1) outerGlow)
  imAdd outerGlow2 innerStroke

/-- Amended description of `create_outline_from_mask` (claim C2 with the
one deviation the code forces): the outer glow subtracts the binarised
mask `B` itself rather than the inner-dilated region.  Stated pointwise:
each output pixel is the saturating sum of the attenuated blurred glow
and the inner stroke. -/
def outlineAmendedA (cv : Bool) (mask : Img) (s : Nat) : Img :=
  let B := thresholdImg 127 mask
  let innerStroke := imSub (dilate cv B (ellipseOffsets (s + 1) (s + 1))) B
  let glow := imScale mul06 (gaussianBlur (s * 4 + 1)
      (imSub (dilate cv B (ellipseOffsets (s * 3 + 1) (s * 3 + 1))) B))
  ⟨mask.h, mask.w, fun r c => min 255 (glow.pix r c + innerStroke.pix r c)⟩

/-- Amended description of `create_outline`: binarise at 127, close with a
3×3 ellipse (a step the claim omits); inner stroke = dilation by an
`s`-sized ellipse minus the closed mask; outer glow = dilation by a
`2s`-sized ellipse (radius ≈ `s`, below the claimed `1.5s`-`3s`) minus the
inner-dilated region, blurred with kernel `s | 1` and attenuated by `0.5`;
saturating addition. -/
def outlineAmendedB (cv : Bool) (alpha : Img) (s : Nat) : Img :=
  let B := morphClose cv (thresholdImg 127 alpha) (ellipseOffsets 3 3)
  let innerDilated := dilate cv B (ellipseOffsets s s)
  let innerStroke := imSub innerDilated B
  let glow := imScale mul05 (gaussianBlur (s ||| 1)
      (imSub (dilate cv B (ellipseOffsets (s * 2) (s * 2))) innerDilated))
  ⟨alpha.h, alpha.w, fun r c => min 255 (glow.pix r c + innerStroke.pix r c)⟩

/-- The `process_video_fast` frame loop without the (unreachable for a
non-zero sampling interval) `ZeroDivisionError` path; bridge for
reasoning about `pvfLoopE`. -/
def pvfLoop (f : α → β) (N : Nat) : List α → Nat → Option β → Nat → List β × Nat
  | [], _, _, processed => ([], processed)
  | frame :: rest, idx, lastv, processed =>
    if idx % N = 0 then
      let out := f frame
      let rec1 := pvfLoop f N rest (idx + 1) (some out) (processed + 1)
      (out :: rec1.1, rec1.2)
    else
      match lastv with
      | some out =>
        let rec1 := pvfLoop f N rest (idx + 1) (some out) processed
        (out :: rec1.1, rec1.2)
      | none => pvfLoop f N rest (idx + 1) none processed

/-- Render the in-bounds pixels of an image as a list of rows (used to
state concrete, fully evaluated facts about small images). -/
def Img.toGrid (img : Img) : List (List Nat) :=
  (List.range img.h).map (fun r => (List.range img.w).map (fun c => img.pix r c))

/-- A 6×6 test mask: background everywhere except one subject pixel at
row 2, column 2. -/
def m6mask : Img := Img.ofRows
  [[0, 0, 0, 0, 0, 0],
   [0, 0, 0, 0, 0, 0],
   [0, 0, 255, 0, 0, 0],
   [0, 0, 0, 0, 0, 0],
   [0, 0, 0, 0, 0, 0],
   [0, 0, 0, 0, 0, 0]]

/-- A 1×2 test mask: background on the left, subject on the right. -/
def m12mask : Img := Img.ofRows [[0, 255]]

/-- The all-zero 6×6 grid. -/
def zeroGrid6 : List (List Nat) := List.replicate 6 (List.replicate 6 0)

/-- A malformed (3-channel) mask-source result with visibly non-opaque
pixel data. -/
def res3chan : ModelResult := ⟨3, 4, 4, 3, fun _ _ _ => 7⟩

/-- A well-formed 4-channel mask-source result of spatial size 6×6. -/
def res4chan : ModelResult := ⟨3, 6, 6, 4, fun _ _ _ => 200⟩

/-- A malformed 2-channel (e.g. luminance-alpha) mask-source result. -/
def res2chan : ModelResult := ⟨3, 4, 4, 2, fun _ _ _ => 9⟩

/-- A 2-dimensional (plain single-channel) mask-source result: its shape
has no third entry, so `result_np.shape[2]` raises `IndexError`. -/
def res2dim : ModelResult := ⟨2, 4, 4, 1, fun _ _ _ => 0⟩

theorem init_le_foldl_max {γ : Type} (g : γ → Nat) (l : List γ) (init : Nat) :
    init ≤ l.foldl (fun m o => max m (g o)) init := by
  induction l generalizing init with
  | nil => simp
  | cons a l ih => exact le_trans (le_max_left _ _) (ih (max init (g a)))

theorem le_foldl_max {γ : Type} (g : γ → Nat) :
    ∀ (l : List γ) (init : Nat) (x : γ), x ∈ l →
      g x ≤ l.foldl (fun m o => max m (g o)) init
  | [], _, _, hx => by simp at hx
  | a :: l, init, x, hx => by
    rcases List.mem_cons.mp hx with rfl | hx2
    · exact le_trans (le_max_right init (g x)) (init_le_foldl_max g l _)
    · exact le_foldl_max g l (max init (g a)) x hx2

theorem foldl_max_le {γ : Type} (g : γ → Nat) :
    ∀ (l : List γ) (init K : Nat), init ≤ K → (∀ x ∈ l, g x ≤ K) →
      l.foldl (fun m o => max m (g o)) init ≤ K
  | [], _, _, hinit, _ => by simpa using hinit
  | a :: l, init, K, hinit, h =>
    foldl_max_le g l _ K (max_le hinit (h a (by simp)))
      (fun x hx => h x (by simp [hx]))

theorem threshVal_le (t v : Nat) : threshVal t v ≤ 255 := by
  unfold threshVal; split <;> omega

theorem get0_le (img : Img) (K : Nat) (h : ∀ r c, img.pix r c ≤ K) (r c : Int) :
    img.get0 r c ≤ K := by
  unfold Img.get0; split
  · exact h _ _
  · exact Nat.zero_le K

theorem dilate_pix_le (cv : Bool) (img : Img) (offs : List (Int × Int)) (K : Nat)
    (h : ∀ r c, img.pix r c ≤ K) (r c : Nat) :
    (dilate cv img offs).pix r c ≤ K := by
  have hrw : (dilate cv img offs).pix r c =
      offs.foldl (fun m o => max m (img.get0 ((r : Int) + (if cv then o.2 else -o.2))
        ((c : Int) + (if cv then o.1 else -o.1)))) 0 := rfl
  rw [hrw]
  exact foldl_max_le _ offs 0 K (Nat.zero_le K) (fun x _ => get0_le img K h _ _)

theorem le_dilate_pix (cv : Bool) (img : Img) (offs : List (Int × Int))
    (o : Int × Int) (ho : o ∈ offs) (r c : Nat) :
    img.get0 ((r : Int) + (if cv then o.2 else -o.2))
             ((c : Int) + (if cv then o.1 else -o.1)) ≤ (dilate cv img offs).pix r c := by
  have hrw : (dilate cv img offs).pix r c =
      offs.foldl (fun m x => max m (img.get0 ((r : Int) + (if cv then x.2 else -x.2))
        ((c : Int) + (if cv then x.1 else -x.1)))) 0 := rfl
  rw [hrw]
  exact le_foldl_max (fun x => img.get0 ((r : Int) + (if cv then x.2 else -x.2))
    ((c : Int) + (if cv then x.1 else -x.1))) offs 0 o ho

theorem reflect101_coe_of_lt (r len : Nat) (h : r < len) :
    reflect101 (r : Int) len = r := by
  unfold reflect101
  by_cases h1 : len ≤ 1
  · have hr : r = 0 := by omega
    simp [h1, hr]
  · rw [if_neg h1]
    have hm : ((r : Int) % (2 * (len : Int) - 2)) = (r : Int) := by
      apply Int.emod_eq_of_lt (by omega) (by omega)
    simp only [hm, Int.toNat_natCast]
    rw [if_pos h]

/-- C8: the binarize step (threshold at 127) is the identity on pixel values
already in the binary set, both as a scalar map and on any image pixel. -/
theorem c8_threshold_idempotent (img : Img) (r c v : Nat)
    (hv : v = 0 ∨ v = 255) (h : img.pix r c = 0 ∨ img.pix r c = 255) :
    threshVal 127 v = v ∧ (thresholdImg 127 img).pix r c = img.pix r c := by
  unfold thresholdImg threshVal
  constructor
  · rcases hv with hv | hv <;> simp [hv]
  · rcases h with h | h <;> simp [h]

/-- Witness for C8 at the concrete mask `m6mask` and value 255. -/
theorem c8_witness :
    threshVal 127 255 = 255 ∧ (thresholdImg 127 m6mask).pix 2 2 = m6mask.pix 2 2 :=
  c8_threshold_idempotent m6mask 2 2 255 (by decide) (by decide)

/-- C4: with non-negative offsets, the shadow translation zero-fills the
first `oy` rows and first `ox` columns and otherwise copies the
pre-translation shadow from `(r - oy, c - ox)` — no wrap-around, and
pixels that would leave the frame are simply never read. -/
theorem c4_shadow_translation (cv : Bool) (alpha : Img) (ox oy : Int) (blur : Nat)
    (r c : Nat) (hx : 0 ≤ ox) (hy : 0 ≤ oy) :
    (((r : Int) < oy ∨ (c : Int) < ox) →
        (create_shadow cv alpha ox oy blur).pix r c = 0) ∧
    (oy ≤ (r : Int) → ox ≤ (c : Int) →
        (create_shadow cv alpha ox oy blur).pix r c =
          (shadowPre cv alpha blur).pix (r - oy.toNat) (c - ox.toNat)) := by
  unfold create_shadow translateShadow
  constructor
  · intro h
    show (if 0 ≤ oy ∧ 0 ≤ ox then _ else _) = 0
    rw [if_pos ⟨hy, hx⟩, if_neg (by omega)]
  · intro h1 h2
    show (if 0 ≤ oy ∧ 0 ≤ ox then _ else _) = _
    rw [if_pos ⟨hy, hx⟩, if_pos ⟨h1, h2⟩]

/-- Witness for C4 at a concrete mask and offsets `(2, 1)`. -/
theorem c4_witness :
    (create_shadow true m6mask 2 1 1).pix 0 5 = 0 ∧
    (create_shadow true m6mask 2 1 1).pix 3 4 =
      (shadowPre true m6mask 1).pix (3 - (1 : Int).toNat) (4 - (2 : Int).toNat) :=
  ⟨(c4_shadow_translation true m6mask 2 1 1 0 5 (by decide) (by decide)).1
      (Or.inl (by decide)),
   (c4_shadow_translation true m6mask 2 1 1 3 4 (by decide) (by decide)).2
      (by decide) (by decide)⟩

/-- C7 counterexample: a negative offset does not fail fast — the call
returns normally with an all-zero shadow (under either kernel-orientation
convention), even though the pre-translation shadow is non-empty. -/
theorem c7_counterexample :
    Img.toGrid (create_shadow true m6mask (-1) 12 1) = zeroGrid6 ∧
    Img.toGrid (create_shadow false m6mask (-1) 12 1) = zeroGrid6 ∧
    Img.toGrid (shadowPre true m6mask 1) ≠ zeroGrid6 := by decide

/-- C7 amended: a negative offset is silently mapped to an all-zero shadow
(the guarded copy is skipped and the `np.zeros_like` result is returned);
no error is raised. -/
theorem c7_amended_holds (cv : Bool) (alpha : Img) (ox oy : Int) (blur : Nat)
    (h : ox < 0 ∨ oy < 0) (r c : Nat) :
    (create_shadow cv alpha ox oy blur).pix r c = 0 := by
  unfold create_shadow translateShadow
  show (if 0 ≤ oy ∧ 0 ≤ ox then _ else _) = 0
  rw [if_neg (by omega)]

/-- Witness for the amended C7 at offset `(-1, 2)`. -/
theorem c7_witness : (create_shadow true m6mask (-1) 2 1).pix 2 3 = 0 :=
  c7_amended_holds true m6mask (-1) 2 1 (Or.inl (by decide)) 2 3

/-- C3 counterexample: in `process_video` a non-zero encoder exit status
(here 1, and also -1) neither raises nor preserves the temporary frames —
the run completes with the frames deleted. -/
theorem c3_counterexample :
    process_video_finish 1 = ⟨false, true⟩ ∧
    process_video_finish (-1) = ⟨false, true⟩ :=
  ⟨rfl, rfl⟩

/-- C3 amended: `process_video_fast` propagates any non-zero encoder exit
as an exception and then never deletes the temporary frames (deleting them
only when all three encodes succeed), whereas `process_video` discards the
`os.system` status and always deletes the frames. -/
theorem c3_amended_holds :
    (∀ e1 e2 e3 : Int, e1 ≠ 0 ∨ e2 ≠ 0 ∨ e3 ≠ 0 →
        process_video_fast_finish e1 e2 e3 = ⟨true, false⟩) ∧
    process_video_fast_finish 0 0 0 = ⟨false, true⟩ ∧
    (∀ e : Int, process_video_finish e = ⟨false, true⟩) := by
  refine ⟨?_, rfl, fun _ => rfl⟩
  intro e1 e2 e3 h
  by_cases h1 : e1 = 0 <;> by_cases h2 : e2 = 0 <;> by_cases h3 : e3 = 0 <;>
    simp_all [process_video_fast_finish, subprocessRunCheck]

/-- Witness for the amended C3: outline-encode failure. -/
theorem c3_witness : process_video_fast_finish 0 1 0 = ⟨true, false⟩ :=
  c3_amended_holds.1 0 1 0 (Or.inr (Or.inl (by decide)))

/-- C5 counterexample: a malformed 3-channel mask-source result is
silently coerced to the all-opaque mask — no error is surfaced, and the
result's actual pixel data (value 7) is discarded. -/
theorem c5_counterexample :
    alphaFromResult res3chan 4 4 = .ok (allOpaque 4 4) ∧
    res3chan.channels = 3 ∧ res3chan.pix 0 0 0 = 7 ∧ (allOpaque 4 4).pix 0 0 = 255 :=
  ⟨rfl, rfl, rfl, rfl⟩

/-- C5 amended: a 3-channel mask-source result is silently coerced to an
all-opaque mask of the video's dimensions (its pixel data discarded, no
error surfaced); any other malformation does surface an error — fewer than
three dimensions raises `IndexError` at `result_np.shape[2]`, and three or
more dimensions with a channel count other than 3 or 4 raises `cv2.error`
from the `cvtColor(COLOR_RGB2BGRA)` call, which requires exactly 3 input
channels. -/
theorem c5_amended_holds (res : ModelResult) (height width : Nat) :
    (res.ndim < 3 →
      alphaFromResult res height width =
        .error "IndexError: tuple index out of range") ∧
    (3 ≤ res.ndim → res.channels = 3 →
      alphaFromResult res height width = .ok (allOpaque height width)) ∧
    (3 ≤ res.ndim → res.channels ≠ 3 → res.channels ≠ 4 →
      alphaFromResult res height width =
        .error "cv2.error: (-2:Unspecified error) Invalid number of channels in input image in function cvtColor") := by
  refine ⟨?_, ?_, ?_⟩
  · intro hnd
    unfold alphaFromResult
    rw [if_pos hnd]
  · intro hnd h3
    unfold alphaFromResult
    rw [if_neg (by omega), if_neg (by omega), if_pos h3]
  · intro hnd h3 h4
    unfold alphaFromResult
    rw [if_neg (by omega), if_neg h4, if_neg h3]

/-- Witness for the amended C5: the 2-dimensional result raises
`IndexError`, the 3-channel result is coerced silently, and the 2-channel
result raises `cv2.error` from `cvtColor`. -/
theorem c5_witness :
    alphaFromResult res2dim 6 6 = .error "IndexError: tuple index out of range" ∧
    alphaFromResult res3chan 6 6 = .ok (allOpaque 6 6) ∧
    alphaFromResult res2chan 6 6 =
      .error "cv2.error: (-2:Unspecified error) Invalid number of channels in input image in function cvtColor" :=
  ⟨(c5_amended_holds res2dim 6 6).1 (by decide),
   (c5_amended_holds res3chan 6 6).2.1 (by decide) (by decide),
   (c5_amended_holds res2chan 6 6).2.2 (by decide) (by decide) (by decide)⟩

/-- C10: `--sample 0` passes argument parsing unvalidated, and both frame
loops then raise `ZeroDivisionError` on the very first frame. -/
theorem c10_sample_zero_raises {α β : Type} (frames : List α) (f : α → β)
    (h : frames ≠ []) :
    parseSampleArg 0 = .ok 0 ∧
    process_video_frames frames f 0 =
      .error "ZeroDivisionError: integer division or modulo by zero" ∧
    process_video_fast_frames frames f 0 =
      .error "ZeroDivisionError: integer division or modulo by zero" := by
  match frames with
  | [] => exact absurd rfl h
  | a :: rest => exact ⟨rfl, rfl, rfl⟩

/-- Witness for C10 on a one-frame video. -/
theorem c10_witness :
    parseSampleArg 0 = .ok 0 ∧
    process_video_frames [5] (fun x : Nat => x) 0 =
      .error "ZeroDivisionError: integer division or modulo by zero" ∧
    process_video_fast_frames [5] (fun x : Nat => x) 0 =
      .error "ZeroDivisionError: integer division or modulo by zero" :=
  c10_sample_zero_raises [5] (fun x => x) (by decide)

theorem ok_bind {ε δ γ : Type} (x : δ) (g : δ → Except ε γ) :
    (Except.ok x >>= g) = g x := rfl

theorem pvfLoopE_eq_ok {α β : Type} (f : α → β) (N : Nat) (hN : N ≠ 0) :
    ∀ (l : List α) (idx : Nat) (lastv : Option β) (p : Nat),
      pvfLoopE f N l idx lastv p = .ok (pvfLoop f N l idx lastv p)
  | [], _, _, _ => rfl
  | frame :: rest, idx, lastv, p => by
    have hmod : pyMod idx N = .ok (idx % N) := by simp [pyMod, hN]
    simp only [pvfLoopE, pvfLoop, hmod, ok_bind]
    by_cases h : idx % N = 0
    · rw [if_pos h, if_pos h]
      simp only [pvfLoopE_eq_ok f N hN rest (idx + 1) (some (f frame)) (p + 1), ok_bind]
      rfl
    · rw [if_neg h, if_neg h]
      cases lastv with
      | some out =>
        simp only [pvfLoopE_eq_ok f N hN rest (idx + 1) (some out) p, ok_bind]
        rfl
      | none => exact pvfLoopE_eq_ok f N hN rest (idx + 1) none p

theorem countP_range_succ_shift (P : Nat → Bool) (n : Nat) :
    (List.range (n + 1)).countP P =
      (if P 0 then 1 else 0) + (List.range n).countP (fun j => P (j + 1)) := by
  rw [List.range_succ_eq_map, List.countP_cons, List.countP_map]
  have hc : (P ∘ Nat.succ) = (fun j => P (j + 1)) := rfl
  rw [hc, Nat.add_comm]

theorem pvfLoop_count {α β : Type} (f : α → β) (N : Nat) :
    ∀ (l : List α) (idx : Nat) (lastv : Option β) (p : Nat),
      (pvfLoop f N l idx lastv p).2 =
        p + (List.range l.length).countP (fun j => (idx + j) % N == 0)
  | [], idx, lastv, p => by
    show p = p + (List.range 0).countP (fun j => (idx + j) % N == 0)
    simp
  | frame :: rest, idx, lastv, p => by
    have hfun : (fun j => ((idx + (j + 1)) % N == 0)) =
        (fun j => (((idx + 1) + j) % N == 0)) := by
      funext j
      have he : idx + (j + 1) = (idx + 1) + j := by omega
      rw [he]
    rw [List.length_cons, countP_range_succ_shift (fun j => (idx + j) % N == 0), hfun]
    simp only [pvfLoop]
    by_cases h : idx % N = 0
    · rw [if_pos h]
      simp only [pvfLoop_count f N rest (idx + 1) (some (f frame)) (p + 1)]
      simp [h]
      omega
    · rw [if_neg h]
      cases lastv with
      | some out =>
        simp only [pvfLoop_count f N rest (idx + 1) (some out) p]
        simp [h]
      | none =>
        simp only [pvfLoop_count f N rest (idx + 1) none p]
        simp [h]

theorem pvfLoop_length {α β : Type} (f : α → β) (N : Nat) :
    ∀ (l : List α) (idx : Nat) (b : β) (p : Nat),
      (pvfLoop f N l idx (some b) p).1.length = l.length
  | [], _, _, _ => rfl
  | frame :: rest, idx, b, p => by
    simp only [pvfLoop]
    by_cases h : idx % N = 0
    · rw [if_pos h]
      simp [pvfLoop_length f N rest (idx + 1) (f frame) (p + 1)]
    · rw [if_neg h]
      simp [pvfLoop_length f N rest (idx + 1) b p]

theorem pvfLoop_get_fresh {α β : Type} (f : α → β) (N : Nat) :
    ∀ (l : List α) (idx : Nat) (b : β) (p : Nat) (j : Nat) (hj : j < l.length),
      (idx + j) % N = 0 →
      (pvfLoop f N l idx (some b) p).1[j]? = some (f (l.get ⟨j, hj⟩))
  | [], _, _, _, j, hj => by simp at hj
  | frame :: rest, idx, b, p, 0, hj => fun hfresh => by
    have h : idx % N = 0 := by simpa using hfresh
    simp only [pvfLoop]
    rw [if_pos h]
    show (f frame :: (pvfLoop f N rest (idx + 1) (some (f frame)) (p + 1)).1)[0]? = _
    rw [List.getElem?_cons_zero]
    rfl
  | frame :: rest, idx, b, p, j + 1, hj => fun hfresh => by
    have hj2 : j < rest.length := by simpa using hj
    have hfresh2 : ((idx + 1) + j) % N = 0 := by
      have he : (idx + 1) + j = idx + (j + 1) := by omega
      rw [he]; exact hfresh
    simp only [pvfLoop]
    by_cases h : idx % N = 0
    · rw [if_pos h]
      simp only [List.getElem?_cons_succ]
      exact pvfLoop_get_fresh f N rest (idx + 1) (f frame) (p + 1) j hj2 hfresh2
    · rw [if_neg h]
      simp only [List.getElem?_cons_succ]
      exact pvfLoop_get_fresh f N rest (idx + 1) b p j hj2 hfresh2

theorem pvfLoop_get_zero_hold {α β : Type} (f : α → β) (N : Nat) (l : List α)
    (idx : Nat) (b : β) (p : Nat) (h0 : l ≠ []) (hhold : idx % N ≠ 0) :
    (pvfLoop f N l idx (some b) p).1[0]? = some b := by
  cases l with
  | nil => exact absurd rfl h0
  | cons frame rest =>
    simp only [pvfLoop]
    rw [if_neg hhold]
    show (b :: (pvfLoop f N rest (idx + 1) (some b) p).1)[0]? = some b
    rw [List.getElem?_cons_zero]

theorem pvfLoop_get_hold {α β : Type} (f : α → β) (N : Nat) :
    ∀ (l : List α) (idx : Nat) (b : β) (p : Nat) (j : Nat), j + 1 < l.length →
      (idx + (j + 1)) % N ≠ 0 →
      (pvfLoop f N l idx (some b) p).1[j + 1]? =
        (pvfLoop f N l idx (some b) p).1[j]?
  | [], _, _, _, j => by intro hj; simp at hj
  | frame :: rest, idx, b, p, 0 => by
    intro hj hhold
    have hrest : rest ≠ [] := by
      intro he; rw [he] at hj; simp at hj
    have h1 : (idx + 1) % N ≠ 0 := by simpa using hhold
    simp only [pvfLoop]
    by_cases h : idx % N = 0
    · rw [if_pos h]
      simp only [List.getElem?_cons_succ, List.getElem?_cons_zero]
      exact pvfLoop_get_zero_hold f N rest (idx + 1) (f frame) (p + 1) hrest h1
    · rw [if_neg h]
      simp only [List.getElem?_cons_succ, List.getElem?_cons_zero]
      exact pvfLoop_get_zero_hold f N rest (idx + 1) b p hrest h1
  | frame :: rest, idx, b, p, j + 1 => by
    intro hj hhold
    have hj2 : (j + 1) + 1 ≤ rest.length := by simpa using hj
    have hhold2 : ((idx + 1) + (j + 1)) % N ≠ 0 := by
      have he : (idx + 1) + (j + 1) = idx + (j + 1 + 1) := by omega
      rw [he]; exact hhold
    simp only [pvfLoop]
    by_cases h : idx % N = 0
    · rw [if_pos h]
      simp only [List.getElem?_cons_succ]
      exact pvfLoop_get_hold f N rest (idx + 1) (f frame) (p + 1) j hj2 hhold2
    · rw [if_neg h]
      simp only [List.getElem?_cons_succ]
      exact pvfLoop_get_hold f N rest (idx + 1) b p j hj2 hhold2

/-- C1 counterexample: on a 4-frame video with sample rate 2,
`process_video` (whose frame counter starts at 1) performs 3 fresh
computations, not 2, and the second frame's output is a fresh result, not
a byte-identical copy of the first frame's. -/
theorem c1_counterexample :
    process_video_frames [0, 1, 2, 3] (fun x : Nat => x) 2 = .ok ([0, 1, 1, 3], 3) ∧
    Except.map (fun p => p.2)
        (process_video_frames [0, 1, 2, 3] (fun x : Nat => x) 2) = .ok 3 ∧
    (3 : Nat) ≠ 2 ∧
    Except.map (fun p => p.1[1]? == p.1[0]?)
        (process_video_frames [0, 1, 2, 3] (fun x : Nat => x) 2) = .ok false :=
  ⟨rfl, rfl, by decide, rfl⟩

/-- C1 amended: `process_video_fast` computes fresh exactly at the 0-based
frame indices divisible by N (so 2 fresh computations at frames 0 and 2 in
the 4-frame, N = 2 scenario, with frames 1 and 3 verbatim copies of their
predecessors), while `process_video` tests a 1-based counter (fresh when
`count % N == 0` or no prior result exists), which on the 4-frame, N = 2
scenario gives 3 fresh computations, at frames 0, 1 and 3. -/
theorem c1_amended_holds {α β : Type} (frames : List α) (f : α → β) (N : Nat)
    (hN : 1 ≤ N) :
    (∃ outs cnt, process_video_fast_frames frames f N = .ok (outs, cnt) ∧
      outs.length = frames.length ∧
      cnt = (List.range frames.length).countP (fun j => j % N == 0) ∧
      (∀ j (hj : j < frames.length), j % N = 0 →
          outs[j]? = some (f (frames.get ⟨j, hj⟩))) ∧
      (∀ j, j + 1 < frames.length → (j + 1) % N ≠ 0 → outs[j + 1]? = outs[j]?)) ∧
    (∀ (a b c d : α) (g : α → β),
        process_video_frames [a, b, c, d] g 2 = .ok ([g a, g b, g b, g d], 3)) := by
  have hN0 : N ≠ 0 := by omega
  constructor
  · cases frames with
    | nil =>
      refine ⟨[], 0, rfl, rfl, by simp, ?_, ?_⟩
      · intro j hj
        simp at hj
      · intro j hj
        simp at hj
    | cons a l =>
      have h0 : (0 : Nat) % N = 0 := Nat.zero_mod N
      have hstep : pvfLoop f N (a :: l) 0 none 0 =
          (f a :: (pvfLoop f N l 1 (some (f a)) 1).1,
            (pvfLoop f N l 1 (some (f a)) 1).2) := by
        simp only [pvfLoop]
        rw [if_pos h0]
      refine ⟨(pvfLoop f N (a :: l) 0 none 0).1, (pvfLoop f N (a :: l) 0 none 0).2,
        ?_, ?_, ?_, ?_, ?_⟩
      · rw [process_video_fast_frames, pvfLoopE_eq_ok f N hN0]
      · rw [hstep]
        simp [pvfLoop_length f N l 1 (f a) 1]
      · rw [pvfLoop_count f N (a :: l) 0 none 0]
        have hf : (fun j => ((0 + j) % N == 0)) = (fun j : Nat => (j % N == 0)) := by
          funext j
          rw [Nat.zero_add]
        rw [hf, Nat.zero_add]
      · intro j hj hfresh
        rw [hstep]
        cases j with
        | zero =>
          rw [List.getElem?_cons_zero]
          rfl
        | succ j =>
          rw [List.getElem?_cons_succ]
          have hj2 : j < l.length := by simpa using hj
          have hfresh2 : (1 + j) % N = 0 := by
            have he : 1 + j = j + 1 := by omega
            rw [he]; exact hfresh
          rw [pvfLoop_get_fresh f N l 1 (f a) 1 j hj2 hfresh2]
          rfl
      · intro j hj hhold
        rw [hstep]
        cases j with
        | zero =>
          rw [List.getElem?_cons_succ, List.getElem?_cons_zero]
          have hl : l ≠ [] := by
            intro he; rw [he] at hj; simp at hj
          have h1 : (1 : Nat) % N ≠ 0 := by simpa using hhold
          exact pvfLoop_get_zero_hold f N l 1 (f a) 1 hl h1
        | succ j =>
          rw [List.getElem?_cons_succ, List.getElem?_cons_succ]
          have hj2 : j + 1 + 1 ≤ l.length := by simpa using hj
          have hhold2 : (1 + (j + 1)) % N ≠ 0 := by
            have he : 1 + (j + 1) = j + 1 + 1 := by omega
            rw [he]; exact hhold
          exact pvfLoop_get_hold f N l 1 (f a) 1 j hj2 hhold2
  · intro a b c d g
    rfl

/-- Witness for the amended C1: the `process_video` scenario instantiated
with concrete numeric frames. -/
theorem c1_witness :
    process_video_frames [10, 20, 30, 40] (fun x : Nat => x) 2 =
      .ok ([10, 20, 20, 40], 3) :=
  (c1_amended_holds [10, 20, 30, 40] (fun x : Nat => x) 2 (by decide)).2
    10 20 30 40 (fun x => x)

/-- C2 counterexample: on a concrete 6×6 mask with stroke 1, the pipeline
of claim C2 (outer glow = outer dilation minus the inner-dilated region)
disagrees with `create_outline_from_mask` (outer glow = outer dilation
minus the binary mask) at pixel (0, 1), under either kernel-orientation
convention. -/
theorem c2_counterexample :
    (create_outline_from_mask true m6mask 1).pix 0 1 = 67 ∧
    (outlineC2Claimed true m6mask 1).pix 0 1 = 66 ∧
    (create_outline_from_mask false m6mask 1).pix 0 1 = 105 ∧
    (outlineC2Claimed false m6mask 1).pix 0 1 = 77 := by
  refine ⟨?_, ?_, ?_, ?_⟩ <;> decide

theorem imgExt (a b : Img) (hh : a.h = b.h) (hw : a.w = b.w)
    (hp : a.pix = b.pix) : a = b := by
  cases a; cases b; cases hh; cases hw; cases hp; rfl

theorem imAdd_h (a b : Img) : (imAdd a b).h = a.h := rfl
theorem imAdd_w (a b : Img) : (imAdd a b).w = a.w := rfl
theorem imAdd_pix (a b : Img) (r c : Nat) :
    (imAdd a b).pix r c = min 255 (a.pix r c + b.pix r c) := rfl
theorem imScale_h (g : Nat → Nat) (i : Img) : (imScale g i).h = i.h := rfl
theorem imScale_w (g : Nat → Nat) (i : Img) : (imScale g i).w = i.w := rfl
theorem imScale_pix (g : Nat → Nat) (i : Img) (r c : Nat) :
    (imScale g i).pix r c = g (i.pix r c) := rfl
theorem imSub_h (a b : Img) : (imSub a b).h = a.h := rfl
theorem imSub_w (a b : Img) : (imSub a b).w = a.w := rfl
theorem gaussianBlur_h (k : Nat) (i : Img) : (gaussianBlur k i).h = i.h := rfl
theorem gaussianBlur_w (k : Nat) (i : Img) : (gaussianBlur k i).w = i.w := rfl
theorem dilate_h (cv : Bool) (i : Img) (offs : List (Int × Int)) :
    (dilate cv i offs).h = i.h := rfl
theorem dilate_w (cv : Bool) (i : Img) (offs : List (Int × Int)) :
    (dilate cv i offs).w = i.w := rfl
theorem erode_h (i : Img) (offs : List (Int × Int)) : (erode i offs).h = i.h := rfl
theorem erode_w (i : Img) (offs : List (Int × Int)) : (erode i offs).w = i.w := rfl
theorem morphClose_h (cv : Bool) (i : Img) (offs : List (Int × Int)) :
    (morphClose cv i offs).h = i.h := rfl
theorem morphClose_w (cv : Bool) (i : Img) (offs : List (Int × Int)) :
    (morphClose cv i offs).w = i.w := rfl
theorem thresholdImg_h (t : Nat) (i : Img) : (thresholdImg t i).h = i.h := rfl
theorem thresholdImg_w (t : Nat) (i : Img) : (thresholdImg t i).w = i.w := rfl

theorem create_outline_eq_ok (cv : Bool) (alpha : Img) (n : Nat) :
    create_outline cv alpha (n + 1) = .ok (outlineAmendedB cv alpha (n + 1)) := by
  have h1 : getStructuringElement (n + 1) (n + 1) =
      .ok (ellipseOffsets (n + 1) (n + 1)) := by
    unfold getStructuringElement
    rw [if_pos ⟨by omega, by omega⟩]
  have h2 : getStructuringElement ((n + 1) * 2) ((n + 1) * 2) =
      .ok (ellipseOffsets ((n + 1) * 2) ((n + 1) * 2)) := by
    unfold getStructuringElement
    rw [if_pos ⟨by omega, by omega⟩]
  unfold create_outline
  rw [show getStructuringElement 3 3 = .ok (ellipseOffsets 3 3) from rfl, ok_bind,
    h1, ok_bind, h2, ok_bind]
  show Except.ok _ = Except.ok _
  refine congrArg Except.ok (imgExt _ _ ?_ ?_ ?_)
  · simp only [outlineAmendedB, imAdd_h, imScale_h, gaussianBlur_h, imSub_h,
      dilate_h, morphClose_h, erode_h, thresholdImg_h]
  · simp only [outlineAmendedB, imAdd_w, imScale_w, gaussianBlur_w, imSub_w,
      dilate_w, morphClose_w, erode_w, thresholdImg_w]
  · funext r c
    simp only [outlineAmendedB, imAdd_pix, imScale_pix]

/-- C2 amended: `create_outline_from_mask` follows the claimed step order
except that its outer glow subtracts the binarised mask `B` itself (not
the inner-dilated region); `create_outline` (for stroke ≥ 1) additionally
closes the binary mask with a 3×3 ellipse first, uses an outer dilation of
size `2s` (radius ≈ `s`, below the claimed `1.5s`–`3s`), and does subtract
the inner-dilated region, attenuating by `0.5`. -/
theorem c2_amended_holds (cv : Bool) (mask alpha : Img) (s : Nat) (hs : 1 ≤ s) :
    create_outline_from_mask cv mask s = outlineAmendedA cv mask s ∧
    create_outline cv alpha s = .ok (outlineAmendedB cv alpha s) := by
  obtain ⟨n, rfl⟩ : ∃ n, s = n + 1 := ⟨s - 1, by omega⟩
  exact ⟨rfl, create_outline_eq_ok cv alpha n⟩

/-- Witness for the amended C2 at the concrete mask and stroke 1. -/
theorem c2_witness :
    create_outline true m6mask 1 = .ok (outlineAmendedB true m6mask 1) :=
  (c2_amended_holds true m6mask m6mask 1 (by decide)).2

theorem thresholdImg_pix (t : Nat) (i : Img) (r c : Nat) :
    (thresholdImg t i).pix r c = threshVal t (i.pix r c) := rfl

theorem imSub_pix (a b : Img) (r c : Nat) :
    (imSub a b).pix r c = a.pix r c - b.pix r c := rfl

theorem gaussianBlur_pix (k : Nat) (i : Img) (r c : Nat) :
    (gaussianBlur k i).pix r c =
      ((((List.range k).map (fun a =>
          (((List.range k).map (fun b =>
              (gaussWeights k).getD a 0 * (gaussWeights k).getD b 0 *
                i.pix (reflect101 ((r : Int) + (a : Int) - ((k / 2 : Nat) : Int)) i.h)
                      (reflect101 ((c : Int) + (b : Int) - ((k / 2 : Nat) : Int)) i.w))).sum))).sum)
        + 32768) / 65536 := rfl

theorem get0_coe_of_lt (img : Img) (r c : Nat) (hr : r < img.h) (hc : c < img.w) :
    img.get0 (r : Int) (c : Int) = img.pix r c := by
  unfold Img.get0
  rw [if_pos ⟨by omega, by omega, by omega, by omega⟩]
  simp

theorem exists_flip_seg (F : Nat → Bool) :
    ∀ (n a : Nat), F a ≠ F (a + n) →
      ∃ i, a ≤ i ∧ i < a + n ∧ F i ≠ F (i + 1)
  | 0, a, h => absurd (rfl : F a = F a) (by rw [Nat.add_zero] at h; exact h)
  | n + 1, a, h => by
    by_cases hlast : F (a + n) = F (a + n + 1)
    · have h2 : F a ≠ F (a + n) := by
        intro he
        exact h (he.trans hlast)
      obtain ⟨i, hi1, hi2, hi3⟩ := exists_flip_seg F n a h2
      exact ⟨i, hi1, by omega, hi3⟩
    · exact ⟨a + n, by omega, by omega, hlast⟩

theorem exists_flip_between (F : Nat → Bool) (a b : Nat) (h : F a ≠ F b) :
    ∃ i, min a b ≤ i ∧ i + 1 ≤ max a b ∧ F i ≠ F (i + 1) := by
  rcases Nat.le_total a b with hab | hab
  · obtain ⟨n, rfl⟩ : ∃ n, b = a + n := ⟨b - a, by omega⟩
    obtain ⟨i, hi1, hi2, hi3⟩ := exists_flip_seg F n a h
    exact ⟨i, by omega, by omega, hi3⟩
  · obtain ⟨n, rfl⟩ : ∃ n, a = b + n := ⟨a - b, by omega⟩
    obtain ⟨i, hi1, hi2, hi3⟩ := exists_flip_seg F n b (Ne.symm h)
    exact ⟨i, by omega, by omega, hi3⟩

theorem exists_adjacent_flip (g : Nat → Nat → Bool) (h w r1 c1 r2 c2 : Nat)
    (hr1 : r1 < h) (hc1 : c1 < w) (hr2 : r2 < h) (hc2 : c2 < w)
    (hne : g r1 c1 ≠ g r2 c2) :
    ∃ ra ca rb cb, ra < h ∧ ca < w ∧ rb < h ∧ cb < w ∧
      ((rb = ra + 1 ∧ cb = ca) ∨ (rb = ra ∧ cb = ca + 1)) ∧
      g ra ca ≠ g rb cb := by
  by_cases hmid : g r1 c1 = g r1 c2
  · have hv : g r1 c2 ≠ g r2 c2 := fun he => hne (hmid.trans he)
    obtain ⟨i, hi1, hi2, hi3⟩ := exists_flip_between (fun r => g r c2) r1 r2 hv
    exact ⟨i, c2, i + 1, c2, by omega, hc2, by omega, hc2, Or.inl ⟨rfl, rfl⟩, hi3⟩
  · obtain ⟨i, hi1, hi2, hi3⟩ := exists_flip_between (fun c => g r1 c) c1 c2 hmid
    exact ⟨r1, i, r1, i + 1, hr1, by omega, hr1, by omega, Or.inr ⟨rfl, rfl⟩, hi3⟩

theorem dilate44_on (cv : Bool) (B : Img) (qr qc pr pc : Nat)
    (hpr : pr < B.h) (hpc : pc < B.w)
    (hadj : (pr = qr + 1 ∧ pc = qc) ∨ (qr = pr + 1 ∧ pc = qc) ∨
            (pr = qr ∧ pc = qc + 1) ∨ (pr = qr ∧ qc = pc + 1))
    (hBp : B.pix pr pc = 255) (hle : ∀ r c, B.pix r c ≤ 255) :
    (dilate cv B (ellipseOffsets 4 4)).pix qr qc = 255 := by
  have hub : (dilate cv B (ellipseOffsets 4 4)).pix qr qc ≤ 255 :=
    dilate_pix_le cv B _ 255 hle qr qc
  have hkey : ∀ o : Int × Int, o ∈ ellipseOffsets 4 4 →
      (qr : Int) + (if cv then o.2 else -o.2) = (pr : Int) →
      (qc : Int) + (if cv then o.1 else -o.1) = (pc : Int) →
      255 ≤ (dilate cv B (ellipseOffsets 4 4)).pix qr qc := by
    intro o ho he1 he2
    have hd := le_dilate_pix cv B (ellipseOffsets 4 4) o ho qr qc
    rw [he1, he2, get0_coe_of_lt B pr pc hpr hpc, hBp] at hd
    exact hd
  have hres : 255 ≤ (dilate cv B (ellipseOffsets 4 4)).pix qr qc := by
    cases cv with
    | true =>
      rcases hadj with ⟨h1, h2⟩ | ⟨h1, h2⟩ | ⟨h1, h2⟩ | ⟨h1, h2⟩
      · exact hkey (0, 1) (by decide) (by simp; omega) (by simp; omega)
      · exact hkey (0, -1) (by decide) (by simp; omega) (by simp; omega)
      · exact hkey (1, 0) (by decide) (by simp; omega) (by simp; omega)
      · exact hkey (-1, 0) (by decide) (by simp; omega) (by simp; omega)
    | false =>
      rcases hadj with ⟨h1, h2⟩ | ⟨h1, h2⟩ | ⟨h1, h2⟩ | ⟨h1, h2⟩
      · exact hkey (0, -1) (by decide) (by simp; omega) (by simp; omega)
      · exact hkey (0, 1) (by decide) (by simp; omega) (by simp; omega)
      · exact hkey (-1, 0) (by decide) (by simp; omega) (by simp; omega)
      · exact hkey (1, 0) (by decide) (by simp; omega) (by simp; omega)
  omega

theorem mul06_pos_of_ge36 : ∀ v, v < 897 → 36 ≤ v → 1 ≤ mul06 v := by decide

theorem outline1_pos_at (cv : Bool) (mask : Img) (qr qc pr pc : Nat)
    (hqr : qr < mask.h) (hqc : qc < mask.w) (hpr : pr < mask.h) (hpc : pc < mask.w)
    (hoffq : mask.pix qr qc ≤ 127) (honp : 127 < mask.pix pr pc)
    (hadj : (pr = qr + 1 ∧ pc = qc) ∨ (qr = pr + 1 ∧ pc = qc) ∨
            (pr = qr ∧ pc = qc + 1) ∨ (pr = qr ∧ qc = pc + 1)) :
    0 < (create_outline_from_mask cv mask 1).pix qr qc := by
  set B := thresholdImg 127 mask with hB
  have hBle : ∀ r c, B.pix r c ≤ 255 := fun r c => threshVal_le 127 (mask.pix r c)
  have hBh : B.h = mask.h := rfl
  have hBw : B.w = mask.w := rfl
  have hBp : B.pix pr pc = 255 := by
    rw [hB, thresholdImg_pix]
    unfold threshVal
    rw [if_pos honp]
  have hBq : B.pix qr qc = 0 := by
    rw [hB, thresholdImg_pix]
    unfold threshVal
    rw [if_neg (by omega)]
  have hdil : (dilate cv B (ellipseOffsets 4 4)).pix qr qc = 255 :=
    dilate44_on cv B qr qc pr pc (by rw [hBh]; exact hpr) (by rw [hBw]; exact hpc)
      hadj hBp hBle
  set glow := imSub (dilate cv B (ellipseOffsets 4 4)) B with hglow
  have hglow_q : glow.pix qr qc = 255 := by
    rw [hglow, imSub_pix, hdil, hBq]
  have hglow_le : ∀ r c, glow.pix r c ≤ 255 := by
    intro r c
    rw [hglow, imSub_pix]
    have := dilate_pix_le cv B (ellipseOffsets 4 4) 255 hBle r c
    omega
  have hgh : glow.h = mask.h := by
    rw [hglow, imSub_h, dilate_h, hB, thresholdImg_h]
  have hgw : glow.w = mask.w := by
    rw [hglow, imSub_w, dilate_w, hB, thresholdImg_w]
  have hw5 : gaussWeights 5 = [16, 64, 96, 64, 16] := by decide
  have hwle : ∀ a : Nat, (gaussWeights 5).getD a 0 ≤ 96 := by
    intro a
    rw [hw5]
    rcases a with _ | _ | _ | _ | _ | a
    · decide
    · decide
    · decide
    · decide
    · decide
    · simp
  have hrq : reflect101 ((qr : Int) + ((2 : Nat) : Int) - ((5 / 2 : Nat) : Int)) glow.h
      = qr := by
    have he : (qr : Int) + ((2 : Nat) : Int) - ((5 / 2 : Nat) : Int) = (qr : Int) := by
      norm_num
    rw [he]
    exact reflect101_coe_of_lt qr glow.h (by rw [hgh]; exact hqr)
  have hrc : reflect101 ((qc : Int) + ((2 : Nat) : Int) - ((5 / 2 : Nat) : Int)) glow.w
      = qc := by
    have he : (qc : Int) + ((2 : Nat) : Int) - ((5 / 2 : Nat) : Int) = (qc : Int) := by
      norm_num
    rw [he]
    exact reflect101_coe_of_lt qc glow.w (by rw [hgw]; exact hqc)
  have hblur : (gaussianBlur 5 glow).pix qr qc =
      ((((List.range 5).map (fun a =>
          (((List.range 5).map (fun b =>
              (gaussWeights 5).getD a 0 * (gaussWeights 5).getD b 0 *
                glow.pix (reflect101 ((qr : Int) + (a : Int) - ((5 / 2 : Nat) : Int)) glow.h)
                         (reflect101 ((qc : Int) + (b : Int) - ((5 / 2 : Nat) : Int)) glow.w))).sum))).sum)
        + 32768) / 65536 := gaussianBlur_pix 5 glow qr qc
  have hcenter : (96 : Nat) * 96 * 255 ≤
      (((List.range 5).map (fun a =>
          (((List.range 5).map (fun b =>
              (gaussWeights 5).getD a 0 * (gaussWeights 5).getD b 0 *
                glow.pix (reflect101 ((qr : Int) + (a : Int) - ((5 / 2 : Nat) : Int)) glow.h)
                         (reflect101 ((qc : Int) + (b : Int) - ((5 / 2 : Nat) : Int)) glow.w))).sum))).sum) := by
    have hmem2 : (2 : Nat) ∈ List.range 5 := by decide
    have hG22 : (gaussWeights 5).getD 2 0 * (gaussWeights 5).getD 2 0 *
        glow.pix (reflect101 ((qr : Int) + ((2 : Nat) : Int) - ((5 / 2 : Nat) : Int)) glow.h)
                 (reflect101 ((qc : Int) + ((2 : Nat) : Int) - ((5 / 2 : Nat) : Int)) glow.w)
        = 96 * 96 * 255 := by
      rw [hrq, hrc, hglow_q, hw5]
      decide
    have hinner : 96 * 96 * 255 ≤
        ((List.range 5).map (fun b =>
            (gaussWeights 5).getD 2 0 * (gaussWeights 5).getD b 0 *
              glow.pix (reflect101 ((qr : Int) + ((2 : Nat) : Int) - ((5 / 2 : Nat) : Int)) glow.h)
                       (reflect101 ((qc : Int) + (b : Int) - ((5 / 2 : Nat) : Int)) glow.w))).sum := by
      rw [← hG22]
      exact List.single_le_sum (fun x _ => Nat.zero_le x) _
        (List.mem_map_of_mem _ hmem2)
    exact le_trans hinner
      (List.single_le_sum (fun x _ => Nat.zero_le x) _ (List.mem_map_of_mem _ hmem2))
  have hupper : (((List.range 5).map (fun a =>
          (((List.range 5).map (fun b =>
              (gaussWeights 5).getD a 0 * (gaussWeights 5).getD b 0 *
                glow.pix (reflect101 ((qr : Int) + (a : Int) - ((5 / 2 : Nat) : Int)) glow.h)
                         (reflect101 ((qc : Int) + (b : Int) - ((5 / 2 : Nat) : Int)) glow.w))).sum))).sum)
        ≤ 58752000 := by
    have hin : ∀ x ∈ (List.range 5).map (fun a =>
        (((List.range 5).map (fun b =>
            (gaussWeights 5).getD a 0 * (gaussWeights 5).getD b 0 *
              glow.pix (reflect101 ((qr : Int) + (a : Int) - ((5 / 2 : Nat) : Int)) glow.h)
                       (reflect101 ((qc : Int) + (b : Int) - ((5 / 2 : Nat) : Int)) glow.w))).sum)),
        x ≤ 5 * (96 * 96 * 255) := by
      intro x hx
      obtain ⟨a, _, rfl⟩ := List.mem_map.mp hx
      have hterm : ∀ y ∈ (List.range 5).map (fun b =>
          (gaussWeights 5).getD a 0 * (gaussWeights 5).getD b 0 *
            glow.pix (reflect101 ((qr : Int) + (a : Int) - ((5 / 2 : Nat) : Int)) glow.h)
                     (reflect101 ((qc : Int) + (b : Int) - ((5 / 2 : Nat) : Int)) glow.w)),
          y ≤ 96 * 96 * 255 := by
        intro y hy
        obtain ⟨b, _, rfl⟩ := List.mem_map.mp hy
        exact Nat.mul_le_mul (Nat.mul_le_mul (hwle a) (hwle b)) (hglow_le _ _)
      have := List.sum_le_card_nsmul _ (96 * 96 * 255) hterm
      simpa using this
    have := List.sum_le_card_nsmul _ (5 * (96 * 96 * 255)) hin
    simpa using this
  have hval_lo : 36 ≤ (gaussianBlur 5 glow).pix qr qc := by
    rw [hblur]
    have h1 : (36 : Nat) * 65536 ≤
        (((List.range 5).map (fun a =>
          (((List.range 5).map (fun b =>
              (gaussWeights 5).getD a 0 * (gaussWeights 5).getD b 0 *
                glow.pix (reflect101 ((qr : Int) + (a : Int) - ((5 / 2 : Nat) : Int)) glow.h)
                         (reflect101 ((qc : Int) + (b : Int) - ((5 / 2 : Nat) : Int)) glow.w))).sum))).sum)
          + 32768 := by omega
    exact (Nat.le_div_iff_mul_le (by norm_num)).mpr h1
  have hval_hi : (gaussianBlur 5 glow).pix qr qc ≤ 896 := by
    rw [hblur]
    have h1 : (((List.range 5).map (fun a =>
          (((List.range 5).map (fun b =>
              (gaussWeights 5).getD a 0 * (gaussWeights 5).getD b 0 *
                glow.pix (reflect101 ((qr : Int) + (a : Int) - ((5 / 2 : Nat) : Int)) glow.h)
                         (reflect101 ((qc : Int) + (b : Int) - ((5 / 2 : Nat) : Int)) glow.w))).sum))).sum)
        + 32768 ≤ 58784768 := by omega
    calc (((List.range 5).map (fun a =>
          (((List.range 5).map (fun b =>
              (gaussWeights 5).getD a 0 * (gaussWeights 5).getD b 0 *
                glow.pix (reflect101 ((qr : Int) + (a : Int) - ((5 / 2 : Nat) : Int)) glow.h)
                         (reflect101 ((qc : Int) + (b : Int) - ((5 / 2 : Nat) : Int)) glow.w))).sum))).sum
        + 32768) / 65536 ≤ 58784768 / 65536 := Nat.div_le_div_right h1
      _ = 896 := by norm_num
  have hmul : 1 ≤ mul06 ((gaussianBlur 5 glow).pix qr qc) :=
    mul06_pos_of_ge36 _ (by omega) hval_lo
  have hgoal : create_outline_from_mask cv mask 1 =
      imAdd (imScale mul06 (gaussianBlur 5 glow))
        (imSub (dilate cv B (ellipseOffsets 2 2)) B) := by
    rw [hglow, hB]
    unfold create_outline_from_mask
    norm_num
  rw [hgoal, imAdd_pix, imScale_pix]
  have hmin := Nat.le_min.mpr (⟨by norm_num, by omega⟩ :
    1 ≤ 255 ∧ 1 ≤ mul06 ((gaussianBlur 5 glow).pix qr qc) +
      (imSub (dilate cv B (ellipseOffsets 2 2)) B).pix qr qc)
  omega

/-- C6 counterexample: stroke size 0 does not fail fast in
`create_outline_from_mask` — it silently returns the all-zero outline on a
non-trivial mask (both kernel conventions); and stroke size 1 does not
guarantee a non-empty outline for every non-trivial mask in
`create_outline` — on the 1×2 mask `[0, 255]` the 3×3 close fills the
mask and the result is all-zero (both conventions). -/
theorem c6_counterexample :
    m6mask.pix 2 2 = 255 ∧ m6mask.pix 0 0 = 0 ∧
    Img.toGrid (create_outline_from_mask true m6mask 0) = zeroGrid6 ∧
    Img.toGrid (create_outline_from_mask false m6mask 0) = zeroGrid6 ∧
    m12mask.pix 0 1 = 255 ∧ m12mask.pix 0 0 = 0 ∧
    (create_outline true m12mask 1).map Img.toGrid = .ok [[0, 0]] ∧
    (create_outline false m12mask 1).map Img.toGrid = .ok [[0, 0]] := by
  refine ⟨by decide, by decide, by decide, by decide, by decide, by decide, ?_, ?_⟩
  · rfl
  · rfl

/-- C6 amended: with stroke 1, `create_outline_from_mask` produces a
non-empty outline on every mask that has both a subject pixel and a
background pixel (the outer dilation reaches every 4-neighbour, so some
background pixel next to the subject receives glow); with stroke 0 it
does not fail — it silently returns an all-zero outline — while
`create_outline` does fail fast (OpenCV rejects the empty structuring
element). -/
theorem c6_amended_holds (cv : Bool) (mask : Img) (r1 c1 r2 c2 : Nat)
    (hr1 : r1 < mask.h) (hc1 : c1 < mask.w) (hr2 : r2 < mask.h) (hc2 : c2 < mask.w)
    (hon : 127 < mask.pix r1 c1) (hoff : mask.pix r2 c2 ≤ 127) :
    (∃ r c, r < mask.h ∧ c < mask.w ∧
        0 < (create_outline_from_mask cv mask 1).pix r c) ∧
    (∀ r c, (create_outline_from_mask cv mask 0).pix r c = 0) ∧
    create_outline cv mask 0 =
      .error "cv2.error: (-215:Assertion failed) anchor.inside(rect) in function getStructuringElement" := by
  refine ⟨?_, ?_, ?_⟩
  · obtain ⟨ra, ca, rb, cb, hra, hca, hrb, hcb, hadj, hflip⟩ :=
      exists_adjacent_flip (fun r c => decide (127 < mask.pix r c))
        mask.h mask.w r1 c1 r2 c2 hr1 hc1 hr2 hc2
        (by
          show decide (127 < mask.pix r1 c1) ≠ decide (127 < mask.pix r2 c2)
          rw [decide_eq_true hon, decide_eq_false (by omega)]
          simp)
    by_cases hA : 127 < mask.pix ra ca
    · have hBoff : ¬ 127 < mask.pix rb cb := by
        intro hBon
        refine hflip ?_
        show decide (127 < mask.pix ra ca) = decide (127 < mask.pix rb cb)
        rw [decide_eq_true hA, decide_eq_true hBon]
      refine ⟨rb, cb, hrb, hcb, ?_⟩
      refine outline1_pos_at cv mask rb cb ra ca hrb hcb hra hca (by omega) hA ?_
      rcases hadj with ⟨e1, e2⟩ | ⟨e1, e2⟩
      · exact Or.inr (Or.inl ⟨by omega, by omega⟩)
      · exact Or.inr (Or.inr (Or.inr ⟨by omega, by omega⟩))
    · have hBon : 127 < mask.pix rb cb := by
        by_contra hBoff
        refine hflip ?_
        show decide (127 < mask.pix ra ca) = decide (127 < mask.pix rb cb)
        rw [decide_eq_false hA, decide_eq_false hBoff]
      refine ⟨ra, ca, hra, hca, ?_⟩
      refine outline1_pos_at cv mask ra ca rb cb hra hca hrb hcb (by omega) hBon ?_
      rcases hadj with ⟨e1, e2⟩ | ⟨e1, e2⟩
      · exact Or.inl ⟨by omega, by omega⟩
      · exact Or.inr (Or.inr (Or.inl ⟨by omega, by omega⟩))
  · intro r c
    have hz : ∀ x y : Nat, (imSub (dilate cv (thresholdImg 127 mask)
        (ellipseOffsets 1 1)) (thresholdImg 127 mask)).pix x y = 0 := by
      intro x y
      rw [imSub_pix]
      have h11 : ellipseOffsets 1 1 = [(0, 0)] := by decide
      rw [h11]
      have hd : (dilate cv (thresholdImg 127 mask) [(0, 0)]).pix x y =
          (thresholdImg 127 mask).get0 (x : Int) (y : Int) := by
        cases cv <;> simp [dilate]
      rw [hd]
      unfold Img.get0
      split <;> simp
    have hmain : create_outline_from_mask cv mask 0 =
        imAdd (imScale mul06 (gaussianBlur 1
            (imSub (dilate cv (thresholdImg 127 mask) (ellipseOffsets 1 1))
              (thresholdImg 127 mask))))
          (imSub (dilate cv (thresholdImg 127 mask) (ellipseOffsets 1 1))
            (thresholdImg 127 mask)) := by
      unfold create_outline_from_mask
      norm_num
    have hblur0 : (gaussianBlur 1 (imSub (dilate cv (thresholdImg 127 mask)
        (ellipseOffsets 1 1)) (thresholdImg 127 mask))).pix r c = 0 := by
      rw [gaussianBlur_pix]
      simp [hz]
    rw [hmain, imAdd_pix, imScale_pix, hblur0, hz]
    decide
  · rfl

/-- Witness for the amended C6 at the concrete 6×6 mask (subject pixel at
(2,2), background pixel at (0,0)). -/
theorem c6_witness :
    ∃ r c, r < m6mask.h ∧ c < m6mask.w ∧
      0 < (create_outline_from_mask true m6mask 1).pix r c :=
  (c6_amended_holds true m6mask 2 2 0 0 (by decide) (by decide) (by decide)
    (by decide) (by decide) (by decide)).1

theorem translateShadow_h (s : Img) (ox oy : Int) : (translateShadow s ox oy).h = s.h := rfl

theorem translateShadow_w (s : Img) (ox oy : Int) : (translateShadow s ox oy).w = s.w := rfl

theorem shadowPre_h (cv : Bool) (alpha : Img) (blur : Nat) :
    (shadowPre cv alpha blur).h = alpha.h := by
  simp only [shadowPre, imScale_h, gaussianBlur_h, dilate_h, thresholdImg_h]

theorem shadowPre_w (cv : Bool) (alpha : Img) (blur : Nat) :
    (shadowPre cv alpha blur).w = alpha.w := by
  simp only [shadowPre, imScale_w, gaussianBlur_w, dilate_w, thresholdImg_w]

/-- C9: the mask, every derived stylized alpha (outline and shadow) and
every composed output frame keep the source video's spatial dimensions,
and none of the individual image operations changes them. -/
theorem c9_dims_invariant (cv : Bool) (mask alpha : Img) (s blur : Nat)
    (ox oy : Int) (H W : Nat) (res : ModelResult)
    (hch : res.channels = 4) (hrh : res.h = H) (hrw : res.w = W) (hnd : 3 ≤ res.ndim)
    (hmh : mask.h = H) (hmw : mask.w = W) :
    ((create_outline_from_mask cv mask s).h = mask.h ∧
      (create_outline_from_mask cv mask s).w = mask.w) ∧
    (∀ out, create_outline cv alpha s = .ok out →
      out.h = alpha.h ∧ out.w = alpha.w) ∧
    ((create_shadow cv alpha ox oy blur).h = alpha.h ∧
      (create_shadow cv alpha ox oy blur).w = alpha.w) ∧
    (∀ m, alphaFromResult res H W = .ok m → m.h = H ∧ m.w = W) ∧
    (∃ fr, composeBGRA H W 255 255 255 (create_outline_from_mask cv mask s) = .ok fr ∧
      fr.h = H ∧ fr.w = W) ∧
    (∀ (t k : Nat) (img : Img) (offs : List (Int × Int)),
      (thresholdImg t img).h = img.h ∧ (dilate cv img offs).h = img.h ∧
      (erode img offs).h = img.h ∧ (gaussianBlur k img).h = img.h ∧
      (imScale mul035 img).h = img.h ∧ (imSub img img).h = img.h ∧
      (imAdd img img).h = img.h ∧ (translateShadow img ox oy).h = img.h) := by
  have h1h : (create_outline_from_mask cv mask s).h = mask.h := by
    simp only [create_outline_from_mask, imAdd_h, imScale_h, gaussianBlur_h,
      imSub_h, dilate_h, thresholdImg_h]
  have h1w : (create_outline_from_mask cv mask s).w = mask.w := by
    simp only [create_outline_from_mask, imAdd_w, imScale_w, gaussianBlur_w,
      imSub_w, dilate_w, thresholdImg_w]
  refine ⟨⟨h1h, h1w⟩, ?_, ?_, ?_, ?_, ?_⟩
  · intro out hout
    rcases Nat.eq_zero_or_pos s with rfl | hs
    · rw [show create_outline cv alpha 0 =
          .error "cv2.error: (-215:Assertion failed) anchor.inside(rect) in function getStructuringElement"
          from rfl] at hout
      cases hout
    · obtain ⟨n, rfl⟩ : ∃ n, s = n + 1 := ⟨s - 1, by omega⟩
      rw [create_outline_eq_ok cv alpha n] at hout
      injection hout with h
      subst h
      constructor
      · simp only [outlineAmendedB]
      · simp only [outlineAmendedB]
  · constructor
    · rw [create_shadow, translateShadow_h, shadowPre_h]
    · rw [create_shadow, translateShadow_w, shadowPre_w]
  · intro m hm
    unfold alphaFromResult at hm
    rw [if_neg (by omega), if_pos hch] at hm
    injection hm with h
    subst h
    exact ⟨hrh, hrw⟩
  · refine ⟨⟨H, W, fun _ _ => 255, fun _ _ => 255, fun _ _ => 255,
      (create_outline_from_mask cv mask s).pix⟩, ?_, rfl, rfl⟩
    unfold composeBGRA
    rw [if_pos ⟨h1h.trans hmh, h1w.trans hmw⟩]
  · intro t k img offs
    exact ⟨rfl, rfl, rfl, rfl, rfl, rfl, rfl, rfl⟩

/-- Witness for C9 at concrete inputs. -/
theorem c9_witness :
    (create_shadow true m6mask 2 1 1).h = m6mask.h ∧
    (create_shadow true m6mask 2 1 1).w = m6mask.w :=
  (c9_dims_invariant true m6mask m6mask 1 1 2 1 6 6 res4chan (by decide) (by decide)
    (by decide) (by decide) (by decide) (by decide)).2.2.1
